import Mathlib

/-!
Verification of the rokuon-kun audio recorder core: the per-sample dynamic
range compressor (`src/effect.rs`), the capture callback's sample processing
and float-to-integer sample conversion, the preview (waveform) buffer, the
FLAC finalize path, and the recording-slot bookkeeping of the record page
(`src/record_page.rs`).  `f32` arithmetic is modelled over the real numbers;
Rust numeric `as` casts are modelled by truncation toward zero with
saturation at the bounds of the target type, which is the defined semantics
of float-to-integer `as` casts in Rust.
-/

namespace Rokuon

/-- `let threshold_amp = 10f32.powf(threshold_db / 20.0);`
(effect.rs line 14). -/
noncomputable def threshold_amp (threshold_db : ℝ) : ℝ :=
  (10 : ℝ) ^ (threshold_db / 20)

/-- Loop body of `compress_audio` (effect.rs lines 16-27), applied to one
sample with the precomputed threshold amplitude. -/
noncomputable def compressSample (thresholdAmp ratio sample : ℝ) : ℝ :=
  let a := |sample|
  if thresholdAmp < a then
    let gain := thresholdAmp + (a - thresholdAmp) / ratio
    let gain_factor := gain / a
    sample * gain_factor
  else
    sample

/-- `compress_audio` (effect.rs lines 11-31): map the per-sample compressor
over the input slice. -/
noncomputable def compress_audio (samples : List ℝ) (threshold_db ratio : ℝ) :
    List ℝ :=
  samples.map (fun sample => compressSample (threshold_amp threshold_db) ratio sample)

/-- `AudioFormat` (setting_page.rs lines 19-24). -/
inductive AudioFormat
  | wave
  | pcm
  | flac
  deriving DecidableEq

/-- `Language` (i18n.rs). -/
inductive Language
  | japanese
  | english
  deriving DecidableEq

/-- `AppSettings` (setting_page.rs lines 8-17). -/
structure AppSettings where
  audio_format : AudioFormat
  sample_rate : ℕ
  bit_depth : ℕ
  compressor_enabled : Bool
  compressor_threshold_db : ℝ
  compressor_ratio : ℝ
  language : Language

/-- The stop-flag check and compressor stage of the capture thread's frame
callback (record_page.rs lines 176-190).  The threshold and ratio read from
the loaded settings are commented out in the source (lines 168-169); the
local constants `-20.0` and `4.0` (lines 170-171) are captured by the
closure instead.  `none` models the early `return` when the stop flag is
set; `some frame` is the processed frame that is then published to the
preview buffer and written to the sink. -/
noncomputable def captureCallback (stopFlag : Bool) (settings : AppSettings)
    (data : List ℝ) : Option (List ℝ) :=
  if stopFlag then
    none
  else
    let compressor_enabled := settings.compressor_enabled
    let compressor_threshold_db : ℝ := -20
    let compressor_ratio : ℝ := 4
    some (if compressor_enabled then
            compress_audio data compressor_threshold_db compressor_ratio
          else
            data)

/-- Truncation toward zero, the rounding used by Rust numeric `as` casts. -/
noncomputable def rtrunc (x : ℝ) : ℤ :=
  if 0 ≤ x then ⌊x⌋ else ⌈x⌉

/-- Rust `expr as i16` applied to an `f32` value: truncate toward zero and
saturate at the `i16` bounds (NaN, which has no real counterpart, maps
to 0). -/
noncomputable def castSatI16 (x : ℝ) : ℤ :=
  max (-32768) (min 32767 (rtrunc x))

/-- Rust `expr as i32` applied to an `f32` value. -/
noncomputable def castSatI32 (x : ℝ) : ℤ :=
  max (-2147483648) (min 2147483647 (rtrunc x))

/-- `let sample_i16 = (sample * i16::MAX as f32) as i16;`
(record_page.rs lines 210 and 221, the Wave and Pcm write paths);
`i16::MAX as f32` is exactly `32767.0`. -/
noncomputable def writeSampleI16 (sample : ℝ) : ℤ :=
  castSatI16 (sample * 32767)

/-- `let sample_i32 = (sample * i32::MAX as f32) as i32;`
(record_page.rs line 230, the Flac accumulation path).  `i32::MAX as f32`
rounds up to `2147483648.0 = 2^31`, one above `i32::MAX`, so a full-scale
sample relies on the saturating cast to stay in range. -/
noncomputable def writeSampleFlacI32 (sample : ℝ) : ℤ :=
  castSatI32 (sample * 2147483648)

/-- Waveform (preview buffer) update in the frame callback
(record_page.rs lines 192-201): `waveform.clear()`, then
`waveform.extend_from_slice(&processed_data)`, then, when more than 300
samples are present, `drain(0..len-300)` from the front. -/
def previewPush (buffer frame : List ℝ) : List ℝ :=
  let w := frame
  if 300 < w.length then w.drop (w.length - 300) else w

/-- `RecordingDevice` (record_page.rs lines 20-27).  `waveform_data` is the
shared preview buffer; `recording_start_time` is an abstract timestamp. -/
structure RecordingDevice where
  device_index : ℕ
  device_name : String
  is_recording : Bool
  waveform_data : List ℝ
  recording_start_time : Option ℕ

/-- The three index-aligned per-slot collections of `record_page`
(record_page.rs lines 330-333): `app_state.recording_devices`,
`recorder_handles` and `stop_flags`.  A join handle is an abstract id;
`none` is a taken (or never stored) handle. -/
structure SessionState where
  recording_devices : List RecordingDevice
  recorder_handles : List (Option ℕ)
  stop_flags : List Bool

/-- The `use_signal` initializers (record_page.rs lines 330-333): all three
collections start empty. -/
def initialState : SessionState := ⟨[], [], []⟩

/-- Add-device button (record_page.rs lines 386-405): when the enumerated
input-device list is non-empty, push a slot for the first device
(`device_index = 0`, its display name), not recording, with a 200-zero
waveform buffer and no start time, plus a `None` handle and a `false` stop
flag; when the list is empty, do nothing. -/
def addSlot (input_devices : List (String × ℕ)) (st : SessionState) :
    SessionState :=
  match input_devices with
  | [] => st
  | (name, _) :: _ =>
      { recording_devices := st.recording_devices ++
          [{ device_index := 0
             device_name := name
             is_recording := false
             waveform_data := List.replicate 200 (0 : ℝ)
             recording_start_time := none }]
        recorder_handles := st.recorder_handles ++ [none]
        stop_flags := st.stop_flags ++ [false] }

/-- Stop branch of `RecordingButton` for one slot (record_page.rs lines
299-314): clear `is_recording` and the start time, set the stop flag,
`take()` the join handle out of its cell and join it when it was present.
The returned `Bool` records whether a join happened. -/
def stopSlot (idx : ℕ) (st : SessionState) : SessionState × Bool :=
  if h : idx < st.recording_devices.length then
    let d := st.recording_devices.get ⟨idx, h⟩
    ({ recording_devices := st.recording_devices.set idx
         { d with is_recording := false, recording_start_time := none }
       recorder_handles := st.recorder_handles.set idx none
       stop_flags := st.stop_flags.set idx true },
     (st.recorder_handles.getD idx none).isSome)
  else
    (st, false)

/-- Delete button (record_page.rs lines 492-509): if the slot is recording,
first run the stop protocol (set the stop flag, `take()` and join the
handle), then `remove` the entry from all three collections at `idx`;
out-of-range indices are skipped by the bounds check. -/
def removeSlot (idx : ℕ) (st : SessionState) : SessionState :=
  if h : idx < st.recording_devices.length then
    if (st.recording_devices.get ⟨idx, h⟩).is_recording then
      { recording_devices := st.recording_devices.eraseIdx idx
        recorder_handles := (st.recorder_handles.set idx none).eraseIdx idx
        stop_flags := (st.stop_flags.set idx true).eraseIdx idx }
    else
      { recording_devices := st.recording_devices.eraseIdx idx
        recorder_handles := st.recorder_handles.eraseIdx idx
        stop_flags := st.stop_flags.eraseIdx idx }
  else st

/-- A session-manager operation on the slot collections. -/
inductive SlotOp
  | add (input_devices : List (String × ℕ))
  | remove (idx : ℕ)

def applyOp (st : SessionState) : SlotOp → SessionState
  | SlotOp.add devs => addSlot devs st
  | SlotOp.remove idx => removeSlot idx st

def applyOps (st : SessionState) (ops : List SlotOp) : SessionState :=
  ops.foldl applyOp st

/-- The alignment invariant: the three per-slot collections have equal
length. -/
def aligned (st : SessionState) : Prop :=
  st.recording_devices.length = st.recorder_handles.length ∧
  st.recorder_handles.length = st.stop_flags.length

/-- The waveform display branch condition `data_len > 0`
(record_page.rs line 536). -/
def waveformHasData (w : List ℝ) : Bool := decide (0 < w.length)

/-- What is on disk for the FLAC output path after finalize.
`indeterminate` covers a failed `std::fs::write`, whose on-disk outcome the
OS does not pin down. -/
inductive FlacFileState
  | absent
  | complete
  | indeterminate
  deriving DecidableEq

/-- Outcome of the FLAC finalize path. `callerError` is the value the
session manager's `handle.join()` hands back to the UI caller: the capture
thread's closure has return type `()`, so it is always `none`. -/
structure FlacFinalizeResult where
  encodeAttempted : Bool
  fileState : FlacFileState
  errorLogged : Bool
  callerError : Option String
  deriving DecidableEq

/-- FLAC finalize (record_page.rs lines 258-288): when the accumulated
sample buffer is non-empty, encode it; on encode failure or on failure of
`flac_stream.write(&mut sink)` (both before any file is created) print to
stderr and leave no file; on success write the encoded bytes with
`std::fs::write`, whose own failure is also only printed.  The three `Ok`
outcomes of the fallible library calls are inputs to the model. -/
def flacFinalize (samples : List ℤ) (encodeOk sinkWriteOk fsWriteOk : Bool) :
    FlacFinalizeResult :=
  if samples.isEmpty then
    { encodeAttempted := false, fileState := FlacFileState.absent
      errorLogged := false, callerError := none }
  else if encodeOk then
    if sinkWriteOk then
      if fsWriteOk then
        { encodeAttempted := true, fileState := FlacFileState.complete
          errorLogged := false, callerError := none }
      else
        { encodeAttempted := true, fileState := FlacFileState.indeterminate
          errorLogged := true, callerError := none }
    else
      { encodeAttempted := true, fileState := FlacFileState.absent
        errorLogged := true, callerError := none }
  else
    { encodeAttempted := true, fileState := FlacFileState.absent
      errorLogged := true, callerError := none }

/-- A placeholder slot whose `is_recording` is `true`, so that `getD`
statements about a stopped slot cannot hold vacuously out of range. -/
def dummySlot : RecordingDevice :=
  { device_index := 0, device_name := "", is_recording := true
    waveform_data := [], recording_start_time := none }

theorem threshold_amp_pos (threshold_db : ℝ) : 0 < threshold_amp threshold_db :=
  Real.rpow_pos_of_pos (by norm_num) _

theorem compressSample_ratio_one (t s : ℝ) (ht : 0 < t) :
    compressSample t 1 s = s := by
  simp only [compressSample]
  by_cases hc : t < |s|
  · rw [if_pos hc]
    have ha : |s| ≠ 0 := ne_of_gt (ht.trans hc)
    field_simp
  · rw [if_neg hc]

/-- C2: with `ratio = 1`, `compress_audio` is the identity on every input
sample sequence, for every `threshold_db`. -/
theorem compress_ratio_one_identity (samples : List ℝ) (threshold_db : ℝ) :
    compress_audio samples threshold_db 1 = samples := by
  unfold compress_audio
  have h := compressSample_ratio_one (threshold_amp threshold_db)
  induction samples with
  | nil => rfl
  | cons x xs ih =>
      simp only [List.map_cons, ih, List.cons.injEq, and_true]
      exact h x (threshold_amp_pos threshold_db)

/-- C7: above threshold and with `ratio > 1`, the compressor strictly
reduces the magnitude of the sample. -/
theorem compress_attenuates_above_threshold (threshold_db ratio s : ℝ)
    (hs : threshold_amp threshold_db < |s|) (hr : 1 < ratio) :
    |compressSample (threshold_amp threshold_db) ratio s| < |s| := by
  have ht : 0 < threshold_amp threshold_db := threshold_amp_pos threshold_db
  have ha : 0 < |s| := ht.trans hs
  have hr0 : 0 < ratio := lt_trans one_pos hr
  have hgain_pos : 0 < threshold_amp threshold_db +
      (|s| - threshold_amp threshold_db) / ratio :=
    add_pos ht (div_pos (sub_pos.2 hs) hr0)
  have hgain_lt : threshold_amp threshold_db +
      (|s| - threshold_amp threshold_db) / ratio < |s| := by
    have hd : (|s| - threshold_amp threshold_db) / ratio <
        |s| - threshold_amp threshold_db :=
      div_lt_self (sub_pos.2 hs) hr
    linarith
  simp only [compressSample]
  rw [if_pos hs, abs_mul, abs_of_pos (div_pos hgain_pos ha), mul_comm,
    div_mul_cancel₀ _ (ne_of_gt ha)]
  exact hgain_lt

/-- Witness for C7 at `threshold_db = 0`, `ratio = 2`, `s = 2`. -/
theorem compress_attenuates_above_threshold_witness :
    threshold_amp 0 < |(2 : ℝ)| ∧ 1 < (2 : ℝ) ∧
      |compressSample (threshold_amp 0) 2 2| < |(2 : ℝ)| := by
  have h1 : threshold_amp 0 < |(2 : ℝ)| := by
    have : threshold_amp 0 = 1 := by
      simp [threshold_amp, Real.rpow_zero]
    rw [this]
    norm_num
  exact ⟨h1, by norm_num, compress_attenuates_above_threshold 0 2 2 h1 (by norm_num)⟩

/-- Concrete settings used by the C1 witness: compressor enabled, with
persisted threshold and ratio deliberately different from the fixed
constants of the capture path. -/
def settingsWitness : AppSettings :=
  { audio_format := AudioFormat.flac
    sample_rate := 48000
    bit_depth := 16
    compressor_enabled := true
    compressor_threshold_db := -5
    compressor_ratio := 2
    language := Language.japanese }

/-- C1: whenever the compressor is enabled, the (non-stopped) capture
callback compresses the frame with the fixed constants `-20.0` and `4.0`,
whatever `compressor_threshold_db` and `compressor_ratio` the loaded
settings record carries. -/
theorem capture_fixed_compressor_constants (settings : AppSettings)
    (data : List ℝ) (h : settings.compressor_enabled = true) :
    captureCallback false settings data = some (compress_audio data (-20) 4) := by
  simp [captureCallback, h]

/-- Witness for C1: enabled settings with threshold `-5` and ratio `2`
still compress with `-20` and `4`. -/
theorem capture_fixed_compressor_constants_witness :
    settingsWitness.compressor_enabled = true ∧
      captureCallback false settingsWitness [(1 : ℝ), (0 : ℝ)] =
        some (compress_audio [(1 : ℝ), (0 : ℝ)] (-20) 4) :=
  ⟨rfl, capture_fixed_compressor_constants settingsWitness [(1 : ℝ), (0 : ℝ)] rfl⟩

/-- C3: the float-to-integer sample conversions never leave the bounds of
the target format for any input, and they saturate (rather than wrap) at
concrete out-of-range inputs, including the full-scale FLAC sample `1.0`
whose product `2^31` exceeds `i32::MAX`. -/
theorem sample_conversion_no_wrap :
    (∀ x : ℝ, -32768 ≤ writeSampleI16 x ∧ writeSampleI16 x ≤ 32767) ∧
    (∀ x : ℝ, -2147483648 ≤ writeSampleFlacI32 x ∧
      writeSampleFlacI32 x ≤ 2147483647) ∧
    writeSampleI16 2 = 32767 ∧
    writeSampleI16 (-2) = -32768 ∧
    writeSampleFlacI32 1 = 2147483647 := by
  refine ⟨fun x => ⟨le_max_left _ _, ?_⟩, fun x => ⟨le_max_left _ _, ?_⟩,
      ?_, ?_, ?_⟩
  · exact max_le (by norm_num) (min_le_left _ _)
  · exact max_le (by norm_num) (min_le_left _ _)
  · have h2 : (2 : ℝ) * 32767 = ((65534 : ℤ) : ℝ) := by norm_num
    rw [writeSampleI16, castSatI16, rtrunc, h2]
    rw [if_pos (by norm_num), Int.floor_intCast]
    norm_num
  · have h2 : (-2 : ℝ) * 32767 = ((-65534 : ℤ) : ℝ) := by norm_num
    rw [writeSampleI16, castSatI16, rtrunc, h2]
    rw [if_neg (by norm_num), Int.ceil_intCast]
    norm_num
  · have h2 : (1 : ℝ) * 2147483648 = ((2147483648 : ℤ) : ℝ) := by norm_num
    rw [writeSampleFlacI32, castSatI32, rtrunc, h2]
    rw [if_pos (by norm_num), Int.floor_intCast]
    norm_num

/-- C4: pushing a frame replaces the whole buffer content with (the last
300 samples of) that frame: the result is the `length - 300` drop of the
frame alone, its length is `min length 300`, and it does not depend on the
prior buffer content. -/
theorem preview_push_latest_snapshot (buffer buffer2 frame : List ℝ) :
    previewPush buffer frame = frame.drop (frame.length - 300) ∧
    (previewPush buffer frame).length = min frame.length 300 ∧
    previewPush buffer frame = previewPush buffer2 frame := by
  refine ⟨?_, ?_, rfl⟩
  · unfold previewPush
    by_cases h : 300 < frame.length
    · rw [if_pos h]
    · rw [if_neg h, Nat.sub_eq_zero_of_le (le_of_not_lt h), List.drop_zero]
  · unfold previewPush
    by_cases h : 300 < frame.length
    · rw [if_pos h, List.length_drop]
      omega
    · rw [if_neg h]
      omega

theorem aligned_addSlot (devs : List (String × ℕ)) (st : SessionState)
    (h : aligned st) : aligned (addSlot devs st) := by
  cases devs with
  | nil => exact h
  | cons d rest =>
      obtain ⟨h1, h2⟩ := h
      obtain ⟨name, b⟩ := d
      simp only [addSlot, aligned, List.length_append, List.length_cons,
        List.length_nil]
      omega

theorem aligned_removeSlot (idx : ℕ) (st : SessionState) (h : aligned st) :
    aligned (removeSlot idx st) := by
  obtain ⟨h1, h2⟩ := h
  unfold removeSlot
  split
  case isTrue hlt =>
    have e1 : idx < st.recorder_handles.length := by omega
    have e2 : idx < st.stop_flags.length := by omega
    split
    case isTrue hrec =>
      simp only [aligned, List.length_eraseIdx, List.length_set,
        if_pos hlt, if_pos e1, if_pos e2]
      omega
    case isFalse hrec =>
      simp only [aligned, List.length_eraseIdx, if_pos hlt, if_pos e1,
        if_pos e2]
      omega
  case isFalse hlt => exact ⟨h1, h2⟩

theorem aligned_applyOps (ops : List SlotOp) (st : SessionState)
    (h : aligned st) : aligned (applyOps st ops) := by
  induction ops generalizing st with
  | nil => exact h
  | cons op rest ih =>
      have h1 : aligned (applyOp st op) := by
        cases op with
        | add devs => exact aligned_addSlot devs st h
        | remove idx => exact aligned_removeSlot idx st h
      exact ih (applyOp st op) h1

/-- C5: after any sequence of add-slot and remove-slot operations starting
from the empty state, the slot, stop-flag and join-handle collections have
equal length. -/
theorem slot_collections_aligned (ops : List SlotOp) :
    aligned (applyOps initialState ops) :=
  aligned_applyOps ops initialState ⟨rfl, rfl⟩

theorem getD_set_self {α : Type} (l : List α) (i : ℕ) (a d : α)
    (h : i < l.length) : (l.set i a).getD i d = a := by
  induction l generalizing i with
  | nil => simp at h
  | cons x xs ih =>
      cases i with
      | zero => rfl
      | succ n =>
          simp only [List.set_cons_succ, List.getD_cons_succ]
          exact ih n (by simpa using h)

theorem getD_set_default {α : Type} (l : List α) (i : ℕ) (a : α) :
    (l.set i a).getD i a = a := by
  induction l generalizing i with
  | nil => rfl
  | cons x xs ih =>
      cases i with
      | zero => rfl
      | succ n =>
          simp only [List.set_cons_succ, List.getD_cons_succ]
          exact ih n

theorem stopSlot_of_lt (st : SessionState) (idx : ℕ)
    (h : idx < st.recording_devices.length) :
    stopSlot idx st =
      ({ recording_devices := st.recording_devices.set idx
           { st.recording_devices.get ⟨idx, h⟩ with
             is_recording := false, recording_start_time := none }
         recorder_handles := st.recorder_handles.set idx none
         stop_flags := st.stop_flags.set idx true },
       (st.recorder_handles.getD idx none).isSome) := by
  unfold stopSlot
  rw [dif_pos h]

/-- C6: running the stop protocol twice on the same slot leaves
`is_recording = false`, and the second run finds the handle cell already
emptied by the first `take()` and performs no join. -/
theorem stop_idempotent (st : SessionState) (idx : ℕ)
    (h : idx < st.recording_devices.length) :
    (((stopSlot idx (stopSlot idx st).1).1.recording_devices.getD idx
        dummySlot).is_recording = false) ∧
    (stopSlot idx (stopSlot idx st).1).2 = false := by
  have e1 := stopSlot_of_lt st idx h
  set st1 := (stopSlot idx st).1 with hst1
  have hdev1 : st1.recording_devices = st.recording_devices.set idx
      { st.recording_devices.get ⟨idx, h⟩ with
        is_recording := false, recording_start_time := none } := by
    rw [hst1, e1]
  have hhand1 : st1.recorder_handles = st.recorder_handles.set idx none := by
    rw [hst1, e1]
  have hlen1 : idx < st1.recording_devices.length := by
    rw [hdev1, List.length_set]
    exact h
  have e2 := stopSlot_of_lt st1 idx hlen1
  constructor
  · rw [e2]
    exact congrArg RecordingDevice.is_recording
      (getD_set_self _ _ _ _ hlen1)
  · rw [e2]
    have hnone : st1.recorder_handles.getD idx none = none := by
      rw [hhand1]
      exact getD_set_default _ _ _
    show (st1.recorder_handles.getD idx none).isSome = false
    rw [hnone]
    rfl

/-- Concrete state used by the C6 witness: one slot, recording, with a live
join handle. -/
def stWitness : SessionState :=
  ⟨[⟨0, "Mic", true, [], some 0⟩], [some 1], [false]⟩

/-- Witness for C6 on a one-slot recording state. -/
theorem stop_idempotent_witness :
    0 < stWitness.recording_devices.length ∧
    ((((stopSlot 0 (stopSlot 0 stWitness).1).1.recording_devices.getD 0
        dummySlot).is_recording = false) ∧
      (stopSlot 0 (stopSlot 0 stWitness).1).2 = false) :=
  ⟨by decide, stop_idempotent stWitness 0 (by decide)⟩

/-- C9: immediately after the add-device button, before any audio callback,
the new slot's preview buffer holds exactly 200 samples, all `0.0`, so the
waveform display takes its non-empty branch. -/
theorem new_slot_preview_buffer (name : String) (b : ℕ)
    (rest : List (String × ℕ)) (st : SessionState) :
    ((addSlot ((name, b) :: rest) st).recording_devices.getLast?).map
        RecordingDevice.waveform_data = some (List.replicate 200 (0 : ℝ)) ∧
    (List.replicate 200 (0 : ℝ)).length = 200 ∧
    (∀ x ∈ List.replicate 200 (0 : ℝ), x = 0) ∧
    waveformHasData (List.replicate 200 (0 : ℝ)) = true := by
  refine ⟨?_, List.length_replicate 200 (0 : ℝ),
    fun x hx => List.eq_of_mem_replicate hx, ?_⟩
  · have hd : (addSlot ((name, b) :: rest) st).recording_devices =
        st.recording_devices ++
          [{ device_index := 0, device_name := name, is_recording := false
             waveform_data := List.replicate 200 (0 : ℝ)
             recording_start_time := none }] := rfl
    rw [hd, List.getLast?_append_cons]
    rfl
  · rw [waveformHasData, List.length_replicate]
    rfl

/-- C10: with a non-empty device list, the add-device button appends a slot
for the first enumerated device (`device_index = 0`, its display name), not
recording and with no start timestamp, appends a `None` handle and a
`false` stop flag; with an empty device list it changes nothing. -/
theorem add_slot_first_device (name : String) (b : ℕ)
    (rest : List (String × ℕ)) (st : SessionState) :
    (addSlot ((name, b) :: rest) st).recording_devices.getLast? =
      some { device_index := 0, device_name := name, is_recording := false
             waveform_data := List.replicate 200 (0 : ℝ)
             recording_start_time := none } ∧
    (addSlot ((name, b) :: rest) st).recording_devices.length =
      st.recording_devices.length + 1 ∧
    (addSlot ((name, b) :: rest) st).recorder_handles =
      st.recorder_handles ++ [none] ∧
    (addSlot ((name, b) :: rest) st).stop_flags = st.stop_flags ++ [false] ∧
    addSlot [] st = st := by
  have hd : (addSlot ((name, b) :: rest) st).recording_devices =
      st.recording_devices ++
        [{ device_index := 0, device_name := name, is_recording := false
           waveform_data := List.replicate 200 (0 : ℝ)
           recording_start_time := none }] := rfl
  refine ⟨?_, ?_, rfl, rfl, rfl⟩
  · rw [hd, List.getLast?_append_cons]
    rfl
  · rw [hd, List.length_append]
    rfl

/-- Counterexample to C8 as stated: at a concrete finalize run whose encode
step fails, the error is only printed (logged); the value handed to the
caller of stop/remove by `handle.join()` is `none`, not a reported
failure. -/
theorem flac_failure_not_reported_cex :
    (flacFinalize [1] false true true).encodeAttempted = true ∧
    (flacFinalize [1] false true true).errorLogged = true ∧
    ¬ (flacFinalize [1] false true true).callerError.isSome := by
  decide

/-- C8 (amended): finalize encodes only a non-empty buffer; on encode or
stream-write failure no file is written (the file is absent); the failure
is logged to stderr, and the caller of stop/remove receives no error. -/
theorem flac_finalize_amended (samples : List ℤ)
    (encodeOk sinkWriteOk fsWriteOk : Bool) (hne : samples ≠ [])
    (hfail : encodeOk = false ∨ sinkWriteOk = false) :
    (flacFinalize samples encodeOk sinkWriteOk fsWriteOk).fileState =
      FlacFileState.absent ∧
    (flacFinalize samples encodeOk sinkWriteOk fsWriteOk).errorLogged = true ∧
    (flacFinalize samples encodeOk sinkWriteOk fsWriteOk).callerError = none ∧
    (flacFinalize [] encodeOk sinkWriteOk fsWriteOk).encodeAttempted = false := by
  have hne' : samples.isEmpty = false := by
    cases samples with
    | nil => exact absurd rfl hne
    | cons x xs => rfl
  unfold flacFinalize
  rw [hne']
  rcases hfail with hf | hf
  · rw [hf]
    simp
  · rw [hf]
    cases encodeOk <;> simp

/-- Witness for C8 (amended) at a concrete failing encode. -/
theorem flac_finalize_amended_witness :
    ([1] : List ℤ) ≠ [] ∧
    ((flacFinalize [1] false true true).fileState = FlacFileState.absent ∧
      (flacFinalize [1] false true true).errorLogged = true ∧
      (flacFinalize [1] false true true).callerError = none ∧
      (flacFinalize [] false true true).encodeAttempted = false) :=
  ⟨by decide, flac_finalize_amended [1] false true true (by decide)
    (Or.inl rfl)⟩

end Rokuon
